import Mathlib

/-
  Verification development for the cloud data-engineering ETL pipeline
  (src/src/etl/pipeline.py, class CloudDataPipeline).

  The pipeline's core logic — the transform dispatcher, the data-quality
  validator and the run-statistics computation — is embedded as pure,
  executable Lean functions over a columnar table model.  Tablular values
  are modelled by `Value` (integers, strings, booleans, null), a table by
  its ordered list of named columns.  Fallible operations return
  `Except Err`.  The storage and format-codec layers are external
  capabilities (network and third-party parsing) and are out of scope;
  the orchestrator is modelled with the extracted table and the measured
  duration supplied as parameters.
-/

namespace CloudPipeline

/-- A cell value of a table: numeric (modelled by integers), string,
boolean, or null (pandas NaN/None). -/
inductive Value where
  | int : Int → Value
  | str : String → Value
  | bool : Bool → Value
  | null : Value
deriving DecidableEq

/-- Whether a value is null, mirroring pandas `isnull`. -/
def Value.isNull : Value → Bool
  | .null => true
  | _ => false

/-- A column is an ordered list of cell values. -/
abbrev Column := List Value

/-- A table: an ordered collection of named columns (the pandas DataFrame,
restricted to what the pipeline observes). -/
structure Table where
  cols : List (String × Column)
deriving DecidableEq

/-- The ordered list of column names. -/
def Table.colNames (t : Table) : List String := t.cols.map Prod.fst

/-- Look a column up by name (first match), mirroring `df[column]`. -/
def Table.getCol (t : Table) (name : String) : Option Column :=
  (t.cols.find? (fun c => c.1 == name)).map Prod.snd

/-- The row count: length of the first column (0 for a table with no
columns).  All columns of a well-formed table share this length. -/
def Table.nRows (t : Table) : Nat :=
  match t.cols with
  | [] => 0
  | c :: _ => c.2.length

/-- The value of column `c` at row `i` (null when out of bounds). -/
def Table.colAt (t : Table) (c : String) (i : Nat) : Value :=
  ((t.getCol c).getD []).getD i Value.null

/-- `df.copy()`: a value-level copy of the table. -/
def Table.copy (t : Table) : Table := ⟨t.cols⟩

/-- Errors raised by the transform engine, named as in the specification:
`ColumnNotFoundError` for a reference to a missing column (pandas
KeyError / UndefinedVariableError), `TypeConversionError` for a failing
`astype` cast, and a catch-all for other raised errors (e.g. pandas
`groupby` with no keys). -/
inductive Err where
  | columnNotFound : String → Err
  | typeConversion : String → Err
  | badOperation : String → Err
deriving DecidableEq

deriving instance DecidableEq for Except

/-- Comparison operators of a filter condition (`df.query`). -/
inductive CmpOp where
  | lt | le | eq | ne | ge | gt
deriving DecidableEq

/-- A filter condition: a boolean comparison of a column against an
integer constant, the fragment of the pandas query language the
pipeline's callers use (e.g. `value > 0`). -/
structure Cond where
  column : String
  op : CmpOp
  const : Int
deriving DecidableEq

/-- Aggregation functions for the `aggregate` operation. -/
inductive AggFn where
  | sum | count | min | max
deriving DecidableEq

/-- Target type names for `convert_type` (`astype`). -/
inductive Dtype where
  | int | str
deriving DecidableEq

/-- A transformation operation descriptor: the operation kind plus its
kind-specific parameters, as dispatched by `CloudDataPipeline.transform`.
`unknown` models any descriptor whose `operation` field is outside the
supported set. -/
inductive Op where
  | drop_nulls : Option (List String) → Op
  | fill_nulls : Value → Op
  | rename : List (String × String) → Op
  | filter : Cond → Op
  | aggregate : List String → List (String × AggFn) → Op
  | add_column : String → Value → Op
  | convert_type : String → Dtype → Op
  | unknown : String → Op
deriving DecidableEq

/-- Keep the entries of `xs` whose position is marked true in `mask`. -/
def maskFilter (mask : List Bool) (xs : Column) : Column :=
  ((mask.zip xs).filter (fun p => p.1)).map Prod.snd

/-- Keep the rows marked true in `mask`, columnwise. -/
def Table.filterRows (t : Table) (mask : List Bool) : Table :=
  ⟨t.cols.map (fun c => (c.1, maskFilter mask c.2))⟩

/-- Check that every listed column exists; the first missing one raises
`ColumnNotFoundError` (pandas KeyError). -/
def checkCols (t : Table) (cs : List String) : Except Err Unit :=
  match cs.find? (fun c => !(t.colNames.contains c)) with
  | some c => .error (.columnNotFound c)
  | none => .ok ()

/-- Row mask for `dropna(subset=...)`: a row survives iff every column of
the subset is non-null there. -/
def dropNullsMask (t : Table) (subset : List String) : List Bool :=
  (List.range t.nRows).map (fun i => subset.all (fun c => !(t.colAt c i).isNull))

/-- `fillna(fv)` on one cell: nulls are replaced by `fv`. -/
def fillValue (fv : Value) (v : Value) : Value :=
  if v.isNull then fv else v

/-- Apply a rename mapping to one column name; names without a mapping
entry are left unchanged (pandas `rename` default, `errors='ignore'`). -/
def renameName (mapping : List (String × String)) (n : String) : String :=
  match mapping.find? (fun p => p.1 == n) with
  | some p => p.2
  | none => n

/-- Evaluate a comparison operator on integers. -/
def cmpEval (op : CmpOp) (n c : Int) : Bool :=
  match op with
  | .lt => n < c
  | .le => n ≤ c
  | .eq => n == c
  | .ne => n != c
  | .ge => c ≤ n
  | .gt => c < n

/-- Whether a cell satisfies a filter condition; null never does (pandas
comparisons with NaN are false). -/
def condHolds (cond : Cond) (v : Value) : Bool :=
  match v with
  | .int n => cmpEval cond.op n cond.const
  | _ => false

/-- Row mask for `df.query(condition)`. -/
def filterMask (t : Table) (cond : Cond) : List Bool :=
  (List.range t.nRows).map (fun i => condHolds cond (t.colAt cond.column i))

/-- Cast one cell to a target type; `TypeConversionError` when the value
is not representable (pandas `astype` failure, e.g. NaN or a non-numeric
string to int). -/
def castValue (dtype : Dtype) (c : String) (v : Value) : Except Err Value :=
  match dtype, v with
  | .int, .int n => .ok (.int n)
  | .int, .bool b => .ok (.int (if b then 1 else 0))
  | .int, .str s =>
    match s.toInt? with
    | some n => .ok (.int n)
    | none => .error (.typeConversion c)
  | .int, .null => .error (.typeConversion c)
  | .str, .int n => .ok (.str (toString n))
  | .str, .str s => .ok (.str s)
  | .str, .bool b => .ok (.str (if b then "True" else "False"))
  | .str, .null => .ok (.str "nan")

/-- Overwrite an existing column's values, or append a new column
(`df[name] = ...`). -/
def Table.setCol (t : Table) (name : String) (vs : Column) : Table :=
  if t.colNames.contains name then
    ⟨t.cols.map (fun c => if c.1 == name then (c.1, vs) else c)⟩
  else ⟨t.cols ++ [(name, vs)]⟩

/-- The key of row `i` under the group-by columns. -/
def rowKey (t : Table) (gb : List String) (i : Nat) : List Value :=
  gb.map (fun c => t.colAt c i)

/-- The distinct elements of a list in first-occurrence order, given the
elements already seen. -/
def distinctKeys : List (List Value) → List (List Value) → List (List Value)
  | _, [] => []
  | seen, k :: rest =>
    if seen.contains k then distinctKeys seen rest
    else k :: distinctKeys (k :: seen) rest

/-- Reduce the (integer) values of one group with an aggregation
function; nulls are skipped, as pandas aggregations do. -/
def aggApply (f : AggFn) (vs : Column) : Value :=
  let ns := vs.filterMap (fun v => match v with | .int n => some n | _ => none)
  match f with
  | .count => .int (vs.countP (fun v => !v.isNull))
  | .sum => .int (ns.foldl (· + ·) 0)
  | .min =>
    match ns with
    | [] => .null
    | m :: rest => .int (rest.foldl Min.min m)
  | .max =>
    match ns with
    | [] => .null
    | m :: rest => .int (rest.foldl Max.max m)

/-- `groupby(group_by).agg(aggregations).reset_index()`: group keys become
the leading columns, each aggregated column follows.  Groups are produced
in first-occurrence order (pandas sorts group keys; the specification
leaves group order unguaranteed, only the row set matters).  `groupby`
with an empty key list raises (pandas "No group keys passed"). -/
def applyAggregate (t : Table) (gb : List String) (aggs : List (String × AggFn)) :
    Except Err Table :=
  if gb.isEmpty then .error (.badOperation "No group keys passed")
  else
    match checkCols t gb with
    | .error e => .error e
    | .ok _ =>
      match checkCols t (aggs.map Prod.fst) with
      | .error e => .error e
      | .ok _ =>
        let keys := distinctKeys [] ((List.range t.nRows).map (rowKey t gb))
        let keyCols := gb.enum.map
          (fun p => (p.2, keys.map (fun k => k.getD p.1 Value.null)))
        let aggCols := aggs.map (fun ca =>
          (ca.1, keys.map (fun k =>
            aggApply ca.2
              (((List.range t.nRows).filter (fun i => rowKey t gb i == k)).map
                (fun i => t.colAt ca.1 i)))))
        .ok ⟨keyCols ++ aggCols⟩

/-- One step of the transform dispatcher: the if/elif chain of
`CloudDataPipeline.transform` on a single operation descriptor.  An
unrecognised operation kind matches no branch and leaves the table
untouched. -/
def applyOp (t : Table) (op : Op) : Except Err Table :=
  match op with
  | .drop_nulls subsetOpt =>
    let subset := subsetOpt.getD t.colNames
    match checkCols t subset with
    | .error e => .error e
    | .ok _ => .ok (t.filterRows (dropNullsMask t subset))
  | .fill_nulls v => .ok ⟨t.cols.map (fun c => (c.1, c.2.map (fillValue v)))⟩
  | .rename mapping => .ok ⟨t.cols.map (fun c => (renameName mapping c.1, c.2))⟩
  | .filter cond =>
    match checkCols t [cond.column] with
    | .error e => .error e
    | .ok _ => .ok (t.filterRows (filterMask t cond))
  | .aggregate gb aggs => applyAggregate t gb aggs
  | .add_column name v => .ok (t.setCol name (List.replicate t.nRows v))
  | .convert_type c dtype =>
    match t.getCol c with
    | none => .error (.columnNotFound c)
    | some vs =>
      match vs.mapM (castValue dtype c) with
      | .error e => .error e
      | .ok vs2 => .ok (t.setCol c vs2)
  | .unknown _ => .ok t

/-- The for-loop of `transform`: operations execute strictly in list
order, each consuming the output of the previous; the first raised error
aborts the rest. -/
def applyOps : Table → List Op → Except Err Table
  | t, [] => .ok t
  | t, op :: rest =>
    match applyOp t op with
    | .error e => .error e
    | .ok t2 => applyOps t2 rest

/-- `CloudDataPipeline.transform`: copy the input table, then run the
transformation list over the copy; `none` models the omitted
(`transformations=None`) argument. -/
def transform (df : Table) (transformations : Option (List Op)) : Except Err Table :=
  let df_transformed := df.copy
  match transformations with
  | none => .ok df_transformed
  | some ops => applyOps df_transformed ops

/-- C1: applying the transform engine with an omitted or empty
transformation list returns a table equal to the input: both
`transform T none` and `transform T (some [])` yield `T` itself. -/
theorem apply_empty_is_identity (t : Table) :
    transform t none = .ok t ∧ transform t (some []) = .ok t :=
  ⟨rfl, rfl⟩

/-- C3: an operation descriptor whose kind is outside the supported set
is a no-op: it maps any table to itself without error, and deleting it
from any position of a transformation list does not change the result of
the whole list; in particular `transform T (some [unknown]) = T`. -/
theorem unknown_op_is_noop (t : Table) (tag : String) (pre post : List Op) :
    applyOp t (.unknown tag) = .ok t ∧
    applyOps t (pre ++ Op.unknown tag :: post) = applyOps t (pre ++ post) ∧
    transform t (some [Op.unknown tag]) = .ok t := by
  refine ⟨rfl, ?_, rfl⟩
  induction pre generalizing t with
  | nil => rfl
  | cons op pre ih =>
    simp only [List.cons_append, applyOps]
    cases applyOp t op with
    | error e => rfl
    | ok t2 => exact ih t2

/-- A data-quality rule descriptor: its `type` plus parameters, as
dispatched by `CloudDataPipeline.validate_data_quality`.  `unknown`
models any descriptor whose `type` is outside the supported set. -/
inductive Rule where
  | not_null : String → Rule
  | unique : String → Rule
  | range : String → Int → Int → Rule
  | unknown : String → Rule
deriving DecidableEq

/-- Whether a rule's type is in the supported set. -/
def isKnownRule : Rule → Bool
  | .unknown _ => false
  | _ => true

/-- Flags marking each entry that already occurred earlier in the list
(pandas `duplicated()`), scanning left to right with the values seen so
far. -/
def dupFlags : List Value → Column → List Bool
  | _, [] => []
  | seen, v :: rest => seen.contains v :: dupFlags (v :: seen) rest

/-- `duplicated().sum()`: the number of entries marked as duplicates. -/
def dupCount (vs : Column) : Nat := (dupFlags [] vs).count true

/-- The number of first occurrences (distinct values) of a list not yet
seen: the specification's counting of duplicates is "entries beyond the
first occurrence of each repeated value", i.e. length minus this. -/
def numFirstOccs : List Value → Column → Nat
  | _, [] => 0
  | seen, v :: rest =>
    (if seen.contains v then 0 else 1) + numFirstOccs (v :: seen) rest

/-- Whether a cell is strictly below an integer bound; null and
non-numeric cells are not (pandas comparisons with NaN are false). -/
def valBelow (v : Value) (lo : Int) : Bool :=
  match v with
  | .int n => n < lo
  | _ => false

/-- Whether a cell is strictly above an integer bound. -/
def valAbove (v : Value) (hi : Int) : Bool :=
  match v with
  | .int n => hi < n
  | _ => false

/-- `len(df[(df[column] < min) | (df[column] > max)])`: rows whose value
is strictly below `lo` or strictly above `hi`; the bounds themselves
pass. -/
def outOfRangeCount (vs : Column) (lo hi : Int) : Nat :=
  vs.countP (fun v => valBelow v lo || valAbove v hi)

/-- The passed/failed buckets accumulated by the validation loop.  The
source annotates a failing rule dict in place with an `error` message;
here a failed entry is the rule paired with that message. -/
structure ValAcc where
  passed : List Rule
  failed : List (Rule × String)
deriving DecidableEq

/-- One iteration of the validation loop on a single rule: count the
violations of a known rule against the table and append the rule to the
passed or failed bucket; a rule with an unknown type matches no branch
and is skipped.  Looking up a missing column raises (pandas KeyError),
modelled as `ColumnNotFoundError`. -/
def validateStep (df : Table) (acc : ValAcc) (rule : Rule) : Except Err ValAcc :=
  match rule with
  | .not_null column =>
    match df.getCol column with
    | none => .error (.columnNotFound column)
    | some vs =>
      let null_count := vs.countP Value.isNull
      if null_count = 0 then .ok { acc with passed := acc.passed ++ [rule] }
      else .ok { acc with
        failed := acc.failed ++ [(rule, toString null_count ++ " null values found")] }
  | .unique column =>
    match df.getCol column with
    | none => .error (.columnNotFound column)
    | some vs =>
      let duplicate_count := dupCount vs
      if duplicate_count = 0 then .ok { acc with passed := acc.passed ++ [rule] }
      else .ok { acc with
        failed := acc.failed ++ [(rule, toString duplicate_count ++ " duplicates found")] }
  | .range column lo hi =>
    match df.getCol column with
    | none => .error (.columnNotFound column)
    | some vs =>
      let out_of_range := outOfRangeCount vs lo hi
      if out_of_range = 0 then .ok { acc with passed := acc.passed ++ [rule] }
      else .ok { acc with
        failed := acc.failed ++ [(rule, toString out_of_range ++ " values out of range")] }
  | .unknown _ => .ok acc

/-- The for-loop of `validate_data_quality` over the rule list. -/
def runRules (df : Table) : ValAcc → List Rule → Except Err ValAcc
  | acc, [] => .ok acc
  | acc, rule :: rest =>
    match validateStep df acc rule with
    | .error e => .error e
    | .ok acc2 => runRules df acc2 rest

/-- The validation report: passed and failed rule lists, the total rule
count, and the pass rate. -/
structure Report where
  passed : List Rule
  failed : List (Rule × String)
  total_rules : Nat
  pass_rate : ℚ
deriving DecidableEq

/-- `CloudDataPipeline.validate_data_quality`: evaluate every rule in
order against the table and aggregate the report;
`pass_rate = len(passed) / len(rules) if rules else 0`. -/
def validate_data_quality (df : Table) (rules : List Rule) : Except Err Report :=
  match runRules df ⟨[], []⟩ rules with
  | .error e => .error e
  | .ok acc =>
    .ok { passed := acc.passed
          failed := acc.failed
          total_rules := rules.length
          pass_rate :=
            if rules.isEmpty then 0
            else (acc.passed.length : ℚ) / (rules.length : ℚ) }

/-- The statistics record returned by a completed pipeline run. -/
structure PipelineStats where
  input_rows : Nat
  output_rows : Nat
  duration_seconds : ℚ
  rows_per_second : ℚ
  source : String
  destination : String
deriving DecidableEq

/-- The stats dictionary built at the end of `run_etl_pipeline`:
`rows_per_second = output_rows / duration if duration > 0 else 0`. -/
def mkStats (input_rows output_rows : Nat) (duration : ℚ)
    (source destination : String) : PipelineStats :=
  { input_rows := input_rows
    output_rows := output_rows
    duration_seconds := duration
    rows_per_second := if 0 < duration then (output_rows : ℚ) / duration else 0
    source := source
    destination := destination }

/-- `CloudDataPipeline.run_etl_pipeline`: extract (the already-decoded
source table and the measured wall-clock duration are parameters, since
storage and parsing are external capabilities), transform, load
(external), then build the stats record.  A transform failure aborts the
run. -/
def run_etl_pipeline (sourceTable : Table) (transformations : Option (List Op))
    (duration : ℚ) (source_key destination_key : String) :
    Except Err PipelineStats :=
  let input_rows := sourceTable.nRows
  match transform sourceTable transformations with
  | .error e => .error e
  | .ok df_transformed =>
    .ok (mkStats input_rows df_transformed.nRows duration source_key destination_key)

/-- Case analysis for one validation step that returned without error:
an unknown-typed rule leaves the buckets untouched; a known rule is
appended to exactly one of the two buckets. -/
theorem validateStep_ok (df : Table) (acc : ValAcc) (rule : Rule) (acc2 : ValAcc)
    (h : validateStep df acc rule = .ok acc2) :
    (isKnownRule rule = false ∧ acc2 = acc) ∨
    (isKnownRule rule = true ∧
      ((acc2.passed = acc.passed ++ [rule] ∧ acc2.failed = acc.failed) ∨
       (∃ msg, acc2.passed = acc.passed ∧ acc2.failed = acc.failed ++ [(rule, msg)]))) := by
  cases rule with
  | unknown tag =>
    refine Or.inl ⟨rfl, ?_⟩
    simp only [validateStep] at h
    cases h
    rfl
  | not_null column =>
    refine Or.inr ⟨rfl, ?_⟩
    simp only [validateStep] at h
    split at h
    · exact Except.noConfusion h
    · split at h
      · cases h; exact Or.inl ⟨rfl, rfl⟩
      · cases h; exact Or.inr ⟨_, rfl, rfl⟩
  | unique column =>
    refine Or.inr ⟨rfl, ?_⟩
    simp only [validateStep] at h
    split at h
    · exact Except.noConfusion h
    · split at h
      · cases h; exact Or.inl ⟨rfl, rfl⟩
      · cases h; exact Or.inr ⟨_, rfl, rfl⟩
  | range column lo hi =>
    refine Or.inr ⟨rfl, ?_⟩
    simp only [validateStep] at h
    split at h
    · exact Except.noConfusion h
    · split at h
      · cases h; exact Or.inl ⟨rfl, rfl⟩
      · cases h; exact Or.inr ⟨_, rfl, rfl⟩

/-- Bookkeeping invariant of the validation loop: on a run without
error, the buckets grow by exactly one entry per known rule, and every
bucket entry is either inherited or has a known type. -/
theorem runRules_ok (df : Table) :
    ∀ (rules : List Rule) (acc acc2 : ValAcc),
      runRules df acc rules = .ok acc2 →
      acc2.passed.length + acc2.failed.length
        = acc.passed.length + acc.failed.length + rules.countP isKnownRule ∧
      (∀ r ∈ acc2.passed, r ∈ acc.passed ∨ isKnownRule r = true) ∧
      (∀ p ∈ acc2.failed, p ∈ acc.failed ∨ isKnownRule p.1 = true) := by
  intro rules
  induction rules with
  | nil =>
    intro acc acc2 h
    simp only [runRules] at h
    cases h
    exact ⟨by simp, fun r hr => Or.inl hr, fun p hp => Or.inl hp⟩
  | cons rule rest ih =>
    intro acc acc2 h
    simp only [runRules] at h
    rcases hs : validateStep df acc rule with e | acc1 <;> rw [hs] at h
    · exact Except.noConfusion h
    · obtain ⟨hlen, hpass, hfail⟩ := ih acc1 acc2 h
      rcases validateStep_ok df acc rule acc1 hs with ⟨hk, rfl⟩ | ⟨hk, hcase⟩
      · refine ⟨?_, hpass, hfail⟩
        rw [hlen, List.countP_cons, hk]
        simp
      · rcases hcase with ⟨hp, hf⟩ | ⟨msg, hp, hf⟩
        · refine ⟨?_, ?_, ?_⟩
          · rw [hlen, hp, hf, List.countP_cons, hk]
            simp [List.length_append]
            omega
          · intro r hr
            rcases hpass r hr with hmem | hkn
            · rw [hp] at hmem
              rcases List.mem_append.mp hmem with hmem | hmem
              · exact Or.inl hmem
              · simp only [List.mem_singleton] at hmem
                subst hmem
                exact Or.inr hk
            · exact Or.inr hkn
          · intro p hp2
            rcases hfail p hp2 with hmem | hkn
            · rw [hf] at hmem
              exact Or.inl hmem
            · exact Or.inr hkn
        · refine ⟨?_, ?_, ?_⟩
          · rw [hlen, hp, hf, List.countP_cons, hk]
            simp [List.length_append]
            omega
          · intro r hr
            rcases hpass r hr with hmem | hkn
            · rw [hp] at hmem
              exact Or.inl hmem
            · exact Or.inr hkn
          · intro p hp2
            rcases hfail p hp2 with hmem | hkn
            · rw [hf] at hmem
              rcases List.mem_append.mp hmem with hmem | hmem
              · exact Or.inl hmem
              · simp only [List.mem_singleton] at hmem
                subst hmem
                exact Or.inr hk
            · exact Or.inr hkn

/-- C2: when validation returns a report, its pass rate equals
|passed| / total_rules, lies in [0, 1], and is exactly 0 for the empty
rule list (the guard avoids the division-by-zero fault). -/
theorem pass_rate_sound (df : Table) (rules : List Rule) (report : Report)
    (h : validate_data_quality df rules = .ok report) :
    report.pass_rate = (report.passed.length : ℚ) / (report.total_rules : ℚ) ∧
    0 ≤ report.pass_rate ∧ report.pass_rate ≤ 1 ∧
    (rules = [] → report.pass_rate = 0) := by
  simp only [validate_data_quality] at h
  rcases hr : runRules df ⟨[], []⟩ rules with e | acc <;> rw [hr] at h
  · exact Except.noConfusion h
  · cases h
    obtain ⟨hlen, -, -⟩ := runRules_ok df rules ⟨[], []⟩ acc hr
    simp only [List.length_nil, Nat.zero_add] at hlen
    have hple : acc.passed.length ≤ rules.length :=
      le_trans (by omega) (List.countP_le_length isKnownRule)
    by_cases hempty : rules.isEmpty
    · have hnil : rules = [] := List.isEmpty_iff.mp hempty
      subst hnil
      have hp0 : acc.passed.length = 0 := by
        simpa using hple
      refine ⟨?_, ?_, ?_, fun _ => ?_⟩ <;>
        simp [hempty, hp0]
    · have h0 : (0 : ℚ) < (rules.length : ℚ) := by
        have : rules ≠ [] := fun hn => hempty (by simp [hn])
        have : 0 < rules.length := List.length_pos.mpr this
        exact_mod_cast this
      refine ⟨by simp [hempty], ?_, ?_, fun hnil => absurd hnil (by
        intro hn
        exact hempty (by simp [hn]))⟩
      · simp only [hempty, if_neg, Bool.false_eq_true, not_false_iff]
        positivity
      · simp only [hempty, if_neg, Bool.false_eq_true, not_false_iff]
        rw [div_le_one h0]
        exact_mod_cast hple

/-- C4: a rule of unknown type is silently skipped: the step is a no-op
with no error, such a rule ends in neither bucket, the report still
counts the full rule list in `total_rules`, and the bucket sizes sum to
the number of known rules — strictly fewer than `total_rules` whenever
an unknown rule is present. -/
theorem unknown_rule_is_skipped (df : Table) (rules : List Rule) (report : Report)
    (acc : ValAcc) (tag : String)
    (h : validate_data_quality df rules = .ok report) :
    validateStep df acc (Rule.unknown tag) = .ok acc ∧
    report.total_rules = rules.length ∧
    (∀ r ∈ report.passed, isKnownRule r = true) ∧
    (∀ p ∈ report.failed, isKnownRule p.1 = true) ∧
    report.passed.length + report.failed.length = rules.countP isKnownRule ∧
    ((∃ r ∈ rules, isKnownRule r = false) →
      report.passed.length + report.failed.length < report.total_rules) := by
  simp only [validate_data_quality] at h
  rcases hr : runRules df ⟨[], []⟩ rules with e | acc0 <;> rw [hr] at h
  · exact Except.noConfusion h
  · cases h
    obtain ⟨hlen, hpass, hfail⟩ := runRules_ok df rules ⟨[], []⟩ acc0 hr
    simp only [List.length_nil, Nat.zero_add] at hlen
    refine ⟨rfl, rfl, ?_, ?_, hlen, ?_⟩
    · intro r hrm
      rcases hpass r hrm with hmem | hkn
      · exact absurd hmem (List.not_mem_nil r)
      · exact hkn
    · intro p hpm
      rcases hfail p hpm with hmem | hkn
      · exact absurd hmem (List.not_mem_nil p)
      · exact hkn
    · rintro ⟨r, hrm, hrunk⟩
      refine lt_of_le_of_ne (hlen ▸ List.countP_le_length isKnownRule) ?_
      rw [hlen]
      intro heq
      have := List.countP_eq_length.mp heq r hrm
      rw [this] at hrunk
      exact Bool.noConfusion hrunk

/-- Scanning invariant of the duplicate flags: every entry is either a
duplicate (it occurred before, or was already seen) or a first
occurrence, so the two counts partition the list length. -/
theorem dupFlags_count_add_firstOccs (vs : Column) :
    ∀ seen, (dupFlags seen vs).count true + numFirstOccs seen vs = vs.length := by
  induction vs with
  | nil => intro seen; rfl
  | cons v rest ih =>
    intro seen
    have hrec := ih (v :: seen)
    by_cases hm : v ∈ seen <;>
      simp [dupFlags, numFirstOccs, hm, List.count_cons] <;>
      omega

/-- C5: a `unique` rule on an existing column counts the entries that
already occurred earlier in the column (`duplicated().sum()`), a count
that equals the column length minus its number of first occurrences; the
rule passes iff that count is zero and otherwise fails with a message
citing the count. -/
theorem unique_rule_sound (df : Table) (c : String) (vs : Column)
    (hcol : df.getCol c = some vs) :
    dupCount vs + numFirstOccs [] vs = vs.length ∧
    ∃ report, validate_data_quality df [Rule.unique c] = .ok report ∧
      (dupCount vs = 0 → report.passed = [Rule.unique c] ∧ report.failed = []) ∧
      (dupCount vs ≠ 0 → report.passed = [] ∧
        report.failed
          = [(Rule.unique c, toString (dupCount vs) ++ " duplicates found")]) := by
  refine ⟨dupFlags_count_add_firstOccs vs [], ?_⟩
  by_cases hz : dupCount vs = 0
  · refine ⟨{ passed := [Rule.unique c], failed := [], total_rules := 1,
              pass_rate := 1 }, ?_, fun _ => ⟨rfl, rfl⟩, fun hnz => absurd hz hnz⟩
    simp [validate_data_quality, runRules, validateStep, hcol, hz]
  · refine ⟨{ passed := [],
              failed := [(Rule.unique c,
                toString (dupCount vs) ++ " duplicates found")],
              total_rules := 1, pass_rate := 0 }, ?_, fun hez => absurd hez hz,
      fun _ => ⟨rfl, rfl⟩⟩
    simp [validate_data_quality, runRules, validateStep, hcol, hz]

/-- C6: a `range` rule on an existing integer column counts the rows
strictly below `lo` or strictly above `hi` (values equal to a bound
pass); the rule passes iff that count is zero and otherwise fails with a
message citing the count. -/
theorem range_rule_sound (df : Table) (c : String) (ns : List Int) (lo hi : Int)
    (hcol : df.getCol c = some (ns.map Value.int)) :
    outOfRangeCount (ns.map Value.int) lo hi
      = ns.countP (fun n => decide (n < lo) || decide (hi < n)) ∧
    ∃ report, validate_data_quality df [Rule.range c lo hi] = .ok report ∧
      (outOfRangeCount (ns.map Value.int) lo hi = 0 →
        report.passed = [Rule.range c lo hi] ∧ report.failed = []) ∧
      (outOfRangeCount (ns.map Value.int) lo hi ≠ 0 →
        report.passed = [] ∧
        report.failed = [(Rule.range c lo hi,
          toString (outOfRangeCount (ns.map Value.int) lo hi)
            ++ " values out of range")]) := by
  refine ⟨by simp [outOfRangeCount, List.countP_map]; rfl, ?_⟩
  by_cases hz : outOfRangeCount (ns.map Value.int) lo hi = 0
  · refine ⟨{ passed := [Rule.range c lo hi], failed := [], total_rules := 1,
              pass_rate := 1 }, ?_, fun _ => ⟨rfl, rfl⟩, fun hnz => absurd hz hnz⟩
    simp [validate_data_quality, runRules, validateStep, hcol, hz]
  · refine ⟨{ passed := [],
              failed := [(Rule.range c lo hi,
                toString (outOfRangeCount (ns.map Value.int) lo hi)
                  ++ " values out of range")],
              total_rules := 1, pass_rate := 0 }, ?_, fun hez => absurd hez hz,
      fun _ => ⟨rfl, rfl⟩⟩
    simp [validate_data_quality, runRules, validateStep, hcol, hz]

/-- C7: a completed run's `rows_per_second` is `output_rows / duration`
when the duration is positive and exactly 0 when the duration computes
to 0 — the guard, not a division fault. -/
theorem rows_per_second_sound (sourceTable : Table)
    (transformations : Option (List Op)) (duration : ℚ) (sk dk : String)
    (stats : PipelineStats)
    (h : run_etl_pipeline sourceTable transformations duration sk dk = .ok stats) :
    stats.duration_seconds = duration ∧
    (0 < duration →
      stats.rows_per_second = (stats.output_rows : ℚ) / stats.duration_seconds) ∧
    (duration = 0 → stats.rows_per_second = 0) := by
  simp only [run_etl_pipeline] at h
  split at h
  · exact Except.noConfusion h
  · cases h
    refine ⟨rfl, ?_, ?_⟩
    · intro hd
      simp [mkStats, if_pos hd]
    · intro hd
      simp [mkStats, hd]

/-- A column lookup fails exactly on names outside the column list. -/
theorem getCol_eq_none (t : Table) (c : String) (h : c ∉ t.colNames) :
    t.getCol c = none := by
  have hf : t.cols.find? (fun p => p.1 == c) = none := by
    rw [List.find?_eq_none]
    intro p hp hbeq
    refine h ?_
    have hpc : p.1 = c := by simpa using hbeq
    exact hpc ▸ List.mem_map_of_mem Prod.fst hp
  simp [Table.getCol, hf]

/-- A failing column check always reports a genuinely missing column. -/
theorem checkCols_error_missing (t : Table) (cs : List String) (e : Err)
    (h : checkCols t cs = .error e) :
    ∃ c, e = .columnNotFound c ∧ c ∉ t.colNames := by
  simp only [checkCols] at h
  split at h
  · rename_i c heq
    cases h
    have hp := List.find?_some heq
    exact ⟨c, rfl, by simpa using hp⟩
  · exact Except.noConfusion h

/-- When some listed column is missing, the column check fails with
`ColumnNotFoundError` naming a missing column. -/
theorem checkCols_missing (t : Table) (cs : List String) (c : String)
    (h1 : c ∈ cs) (h2 : c ∉ t.colNames) :
    ∃ e, checkCols t cs = .error (.columnNotFound e) ∧ e ∉ t.colNames := by
  have hs : (cs.find? (fun c2 => !(t.colNames.contains c2))).isSome := by
    rw [List.find?_isSome]
    exact ⟨c, h1, by simpa using h2⟩
  rcases ho : cs.find? (fun c2 => !(t.colNames.contains c2)) with _ | e
  · rw [ho] at hs
    exact absurd hs (by simp)
  · have hp := List.find?_some ho
    refine ⟨e, ?_, by simpa using hp⟩
    unfold checkCols
    rw [ho]

/-- A passing column check means every listed column exists. -/
theorem checkCols_ok (t : Table) (cs : List String) (h : checkCols t cs = .ok ())
    (x : String) (hx : x ∈ cs) : x ∈ t.colNames := by
  by_contra hnx
  obtain ⟨e, he, -⟩ := checkCols_missing t cs x hx hnx
  rw [he] at h
  exact Except.noConfusion h

/-- The existing-column names whose lookup an operation actually
performs.  `rename` contributes none (pandas `rename` silently ignores
mapping keys that match no column), `add_column` creates rather than
looks up, and an `aggregate` with no group keys raises before touching
any column. -/
def Op.referencedColumns : Op → List String
  | .drop_nulls (some cs) => cs
  | .drop_nulls none => []
  | .fill_nulls _ => []
  | .rename _ => []
  | .filter cond => [cond.column]
  | .aggregate [] _ => []
  | .aggregate gb aggs => gb ++ aggs.map Prod.fst
  | .add_column _ _ => []
  | .convert_type c _ => [c]
  | .unknown _ => []

/-- C8 counterexample: a `rename` whose mapping key names a column
absent from the table succeeds, returning the table unchanged, instead
of failing with `ColumnNotFoundError`. -/
theorem rename_missing_key_succeeds :
    "zzz" ∉ Table.colNames ⟨[("a", [Value.int 1])]⟩ ∧
    transform ⟨[("a", [Value.int 1])]⟩ (some [Op.rename [("zzz", "w")]])
      = .ok ⟨[("a", [Value.int 1])]⟩ := by
  constructor
  · decide
  · decide

/-- C8 amended: every supported operation other than `rename` that looks
up a column missing from the table fails with `ColumnNotFoundError`
naming a missing column, while `rename` never fails — mapping keys that
match no column are silently ignored. -/
theorem missing_column_raises (t : Table) (op : Op) (c : String)
    (h1 : c ∈ op.referencedColumns) (h2 : c ∉ t.colNames) :
    (∃ e, applyOp t op = .error (.columnNotFound e) ∧ e ∉ t.colNames) ∧
    ∀ mapping, applyOp t (.rename mapping)
      = .ok ⟨t.cols.map (fun col => (renameName mapping col.1, col.2))⟩ := by
  refine ⟨?_, fun mapping => rfl⟩
  cases op with
  | drop_nulls subsetOpt =>
    cases subsetOpt with
    | none => exact absurd h1 (List.not_mem_nil c)
    | some cs =>
      simp only [Op.referencedColumns] at h1
      obtain ⟨e, he, hne⟩ := checkCols_missing t cs c h1 h2
      exact ⟨e, by simp [applyOp, he], hne⟩
  | fill_nulls v => exact absurd h1 (List.not_mem_nil c)
  | rename mapping => exact absurd h1 (List.not_mem_nil c)
  | filter cond =>
    simp only [Op.referencedColumns, List.mem_singleton] at h1
    subst h1
    obtain ⟨e, he, hne⟩ := checkCols_missing t [cond.column] cond.column
      (List.mem_singleton_self cond.column) h2
    exact ⟨e, by simp [applyOp, he], hne⟩
  | aggregate gb aggs =>
    cases gb with
    | nil => exact absurd h1 (List.not_mem_nil c)
    | cons g gbs =>
      simp only [Op.referencedColumns] at h1
      rcases hck : checkCols t (g :: gbs) with e | u
      · obtain ⟨e2, he2, hne2⟩ := checkCols_error_missing t (g :: gbs) e hck
        subst he2
        exact ⟨e2, by simp [applyOp, applyAggregate, hck], hne2⟩
      · cases u
        rcases List.mem_append.mp h1 with hgb | hagg
        · exact absurd (checkCols_ok t (g :: gbs) hck c hgb) h2
        · obtain ⟨e, he, hne⟩ := checkCols_missing t (aggs.map Prod.fst) c hagg h2
          exact ⟨e, by simp [applyOp, applyAggregate, hck, he], hne⟩
  | add_column name v => exact absurd h1 (List.not_mem_nil c)
  | convert_type c2 dtype =>
    simp only [Op.referencedColumns, List.mem_singleton] at h1
    have h2c : c2 ∉ t.colNames := h1 ▸ h2
    refine ⟨c2, ?_, h2c⟩
    simp [applyOp, getCol_eq_none t c2 h2c]
  | unknown tag => exact absurd h1 (List.not_mem_nil c)

/-- C9 counterexample: renaming column `a` to `b` in a table that
already has a column `b` makes the two labels collide: the rename
succeeds but the column-name set shrinks from two names to one, so the
relabeling is not bijective and does not preserve the column-set
cardinality. -/
theorem rename_collision_shrinks_name_set :
    applyOp ⟨[("a", [Value.int 1]), ("b", [Value.int 2])]⟩ (Op.rename [("a", "b")])
      = .ok ⟨[("b", [Value.int 1]), ("b", [Value.int 2])]⟩ ∧
    (Table.colNames ⟨[("b", [Value.int 1]), ("b", [Value.int 2])]⟩).toFinset.card
      = 1 ∧
    (Table.colNames ⟨[("a", [Value.int 1]), ("b", [Value.int 2])]⟩).toFinset.card
      = 2 := by
  refine ⟨by decide, by decide, by decide⟩

/-- C9 amended: `rename` pushes every column name through the mapping,
keeping the column count, every cell value, and every column's position
(so the order of unmentioned columns is preserved); the cardinality of
the set of column names is preserved whenever the induced relabeling is
injective on the table's names — a colliding mapping can shrink it. -/
theorem rename_is_relabeling (t : Table) (mapping : List (String × String)) :
    ∃ t2, applyOp t (Op.rename mapping) = .ok t2 ∧
      t2.cols = t.cols.map (fun col => (renameName mapping col.1, col.2)) ∧
      t2.cols.length = t.cols.length ∧
      t2.cols.map Prod.snd = t.cols.map Prod.snd ∧
      t2.colNames = t.colNames.map (renameName mapping) ∧
      ((∀ a ∈ t.colNames, ∀ b ∈ t.colNames,
          renameName mapping a = renameName mapping b → a = b) →
        t2.colNames.toFinset.card = t.colNames.toFinset.card) := by
  have hmapset : ∀ (f : String → String) (l : List String),
      (l.map f).toFinset = l.toFinset.image f := by
    intro f l
    ext x
    simp
  have hnames :
      (Table.mk (t.cols.map (fun col => (renameName mapping col.1, col.2)))).colNames
        = t.colNames.map (renameName mapping) := by
    simp only [Table.colNames, List.map_map]
    rfl
  refine ⟨_, rfl, rfl, by simp, ?_, hnames, ?_⟩
  · simp only [List.map_map]
    rfl
  · intro hinj
    rw [hnames, hmapset, Finset.card_image_of_injOn]
    intro a ha b hb hab
    exact hinj a (by simpa using ha) b (by simpa using hb) hab

/-- A store of table objects addressed by references, modelling the
Python object heap relevant to `transform`: the caller's DataFrame and
the `df_transformed` working object live in separate cells, so in-place
mutations (`df_transformed[col] = ...`) touch only the working cell. -/
structure Store where
  cells : List Table
deriving DecidableEq

/-- Dereference a cell (none for a dangling reference). -/
def Store.get (s : Store) (r : Nat) : Option Table := s.cells[r]?

/-- Overwrite a cell in place. -/
def Store.set (s : Store) (r : Nat) (t : Table) : Store := ⟨s.cells.set r t⟩

/-- Allocate a fresh cell holding `t`, returning the new store and the
fresh reference. -/
def Store.alloc (s : Store) (t : Table) : Store × Nat :=
  (⟨s.cells ++ [t]⟩, s.cells.length)

/-- The transform loop over the store: each iteration reads the working
cell, applies one operation and writes the result back to the same cell;
a raised error aborts the loop, leaving the store as it is. -/
def runOpsStore : Store → Nat → List Op → Store × Except Err Unit
  | s, _, [] => (s, .ok ())
  | s, r, op :: rest =>
    match s.get r with
    | none => (s, .error (.badOperation "dangling reference"))
    | some t =>
      match applyOp t op with
      | .error e => (s, .error e)
      | .ok t2 => runOpsStore (s.set r t2) r rest

/-- `CloudDataPipeline.transform` over the store: allocate
`df_transformed = df.copy()` as a fresh object, run the operation list
against that cell only, and return its reference on success. -/
def transformStore (s : Store) (df : Nat) (transformations : Option (List Op)) :
    Store × Except Err Nat :=
  match s.get df with
  | none => (s, .error (.badOperation "dangling reference"))
  | some t =>
    let p := s.alloc t.copy
    match transformations with
    | none => (p.1, .ok p.2)
    | some ops =>
      match runOpsStore p.1 p.2 ops with
      | (s2, .ok _) => (s2, .ok p.2)
      | (s2, .error e) => (s2, .error e)

/-- The transform loop never writes to any cell other than its working
cell. -/
theorem runOpsStore_frame :
    ∀ (ops : List Op) (s : Store) (r j : Nat), j ≠ r →
      ((runOpsStore s r ops).1).get j = s.get j := by
  intro ops
  induction ops with
  | nil => intro s r j hj; rfl
  | cons op rest ih =>
    intro s r j hj
    simp only [runOpsStore]
    split
    · rfl
    · split
      · rfl
      · rename_i t heq t2 ha
        rw [ih (s.set r t2) r j hj]
        simp only [Store.get, Store.set]
        exact List.getElem?_set_ne (fun h => hj h.symm)

/-- C10: the transform engine never mutates the caller's table: whether
the run returns or fails partway, every cell that existed before the
call — in particular the caller's input table — holds exactly the value
it held before, because the engine works on a freshly allocated copy. -/
theorem transform_preserves_input (s : Store) (df : Nat)
    (transformations : Option (List Op)) :
    ((transformStore s df transformations).1).get df = s.get df ∧
    (∀ j, j < s.cells.length →
      ((transformStore s df transformations).1).get j = s.get j) := by
  have hmain : ∀ j, j < s.cells.length →
      ((transformStore s df transformations).1).get j = s.get j := by
    intro j hj
    have hne : j ≠ s.cells.length := Nat.ne_of_lt hj
    have halloc : ∀ (u : Table),
        (Store.mk (s.cells ++ [u])).get j = s.get j := by
      intro u
      simp only [Store.get]
      exact List.getElem?_append_left hj
    simp only [transformStore]
    split
    · rfl
    · rename_i t hg
      cases transformations with
      | none => exact halloc t.copy
      | some ops =>
        simp only [Store.alloc]
        rcases hro : runOpsStore ⟨s.cells ++ [t.copy]⟩ s.cells.length ops
          with ⟨s2, res⟩
        have hframe := runOpsStore_frame ops ⟨s.cells ++ [t.copy]⟩
          s.cells.length j hne
        rw [hro] at hframe
        cases res with
        | ok u => simpa [hframe] using halloc t.copy
        | error e => simpa [hframe] using halloc t.copy
  refine ⟨?_, hmain⟩
  by_cases hdf : df < s.cells.length
  · exact hmain df hdf
  · have hnone : s.get df = none := by
      simp only [Store.get]
      exact List.getElem?_eq_none (Nat.le_of_not_lt hdf)
    simp only [transformStore, hnone]

/-- The report produced on the C2 witness input. -/
def passRateWitnessReport : Report :=
  { passed := [Rule.not_null "id"], failed := [], total_rules := 2,
    pass_rate := (1 : ℚ) / 2 }

/-- Witness for C2: one passing `not_null` rule next to one unknown rule
yield a pass rate of 1/2, inside [0, 1]. -/
theorem pass_rate_sound_witness :
    validate_data_quality ⟨[("id", [Value.int 1])]⟩
        [Rule.not_null "id", Rule.unknown "custom"]
      = .ok passRateWitnessReport ∧
    (passRateWitnessReport.pass_rate
        = (passRateWitnessReport.passed.length : ℚ)
          / (passRateWitnessReport.total_rules : ℚ) ∧
      0 ≤ passRateWitnessReport.pass_rate ∧
      passRateWitnessReport.pass_rate ≤ 1 ∧
      ([Rule.not_null "id", Rule.unknown "custom"] = ([] : List Rule) →
        passRateWitnessReport.pass_rate = 0)) := by
  have hv : validate_data_quality ⟨[("id", [Value.int 1])]⟩
      [Rule.not_null "id", Rule.unknown "custom"] = .ok passRateWitnessReport := by
    norm_num [validate_data_quality, runRules, validateStep, Table.getCol,
      Value.isNull, passRateWitnessReport]
  exact ⟨hv, pass_rate_sound ⟨[("id", [Value.int 1])]⟩
      [Rule.not_null "id", Rule.unknown "custom"] passRateWitnessReport hv⟩

/-- The report produced on the C4 witness input. -/
def unknownRuleWitnessReport : Report :=
  { passed := [Rule.not_null "a"], failed := [], total_rules := 2,
    pass_rate := (1 : ℚ) / 2 }

/-- Witness for C4: a rule list with one unknown-typed rule validates
without error, the unknown rule lands in neither bucket, and the buckets
sum to one entry against a total of two. -/
theorem unknown_rule_is_skipped_witness :
    validate_data_quality ⟨[("a", [Value.int 1])]⟩
        [Rule.unknown "w", Rule.not_null "a"] = .ok unknownRuleWitnessReport ∧
    (validateStep ⟨[("a", [Value.int 1])]⟩ ⟨[], []⟩ (Rule.unknown "w")
        = .ok ⟨[], []⟩ ∧
      unknownRuleWitnessReport.total_rules
        = [Rule.unknown "w", Rule.not_null "a"].length ∧
      (∀ r ∈ unknownRuleWitnessReport.passed, isKnownRule r = true) ∧
      (∀ p ∈ unknownRuleWitnessReport.failed, isKnownRule p.1 = true) ∧
      unknownRuleWitnessReport.passed.length
          + unknownRuleWitnessReport.failed.length
        = [Rule.unknown "w", Rule.not_null "a"].countP isKnownRule ∧
      ((∃ r ∈ [Rule.unknown "w", Rule.not_null "a"], isKnownRule r = false) →
        unknownRuleWitnessReport.passed.length
            + unknownRuleWitnessReport.failed.length
          < unknownRuleWitnessReport.total_rules)) := by
  have hv : validate_data_quality ⟨[("a", [Value.int 1])]⟩
      [Rule.unknown "w", Rule.not_null "a"] = .ok unknownRuleWitnessReport := by
    norm_num [validate_data_quality, runRules, validateStep, Table.getCol,
      Value.isNull, unknownRuleWitnessReport]
  exact ⟨hv, unknown_rule_is_skipped ⟨[("a", [Value.int 1])]⟩
      [Rule.unknown "w", Rule.not_null "a"] unknownRuleWitnessReport ⟨[], []⟩ "w"
      hv⟩

/-- The specification's example column [1, 1, 2, 3, 3, 3]. -/
def uniqueExampleCol : Column :=
  [Value.int 1, Value.int 1, Value.int 2, Value.int 3, Value.int 3, Value.int 3]

/-- A one-column table holding the example column. -/
def uniqueExampleTable : Table := ⟨[("x", uniqueExampleCol)]⟩

/-- Witness for C5: on the column [1, 1, 2, 3, 3, 3] the duplicate count
is 3 and the `unique` rule fails. -/
theorem unique_rule_sound_witness :
    (uniqueExampleTable.getCol "x" = some uniqueExampleCol ∧
      dupCount uniqueExampleCol = 3) ∧
    (dupCount uniqueExampleCol + numFirstOccs [] uniqueExampleCol
        = uniqueExampleCol.length ∧
      ∃ report, validate_data_quality uniqueExampleTable [Rule.unique "x"]
          = .ok report ∧
        (dupCount uniqueExampleCol = 0 →
          report.passed = [Rule.unique "x"] ∧ report.failed = []) ∧
        (dupCount uniqueExampleCol ≠ 0 → report.passed = [] ∧
          report.failed = [(Rule.unique "x",
            toString (dupCount uniqueExampleCol) ++ " duplicates found")])) :=
  ⟨⟨by decide, by decide⟩,
    unique_rule_sound uniqueExampleTable "x" uniqueExampleCol (by decide)⟩

/-- The specification's example values [-1, 0, 5, 10, 11]. -/
def rangeExampleInts : List Int := [-1, 0, 5, 10, 11]

/-- A one-column table holding the example values. -/
def rangeExampleTable : Table := ⟨[("v", rangeExampleInts.map Value.int)]⟩

/-- Witness for C6: with min 0 and max 10 on [-1, 0, 5, 10, 11] exactly
2 rows are out of range and the `range` rule fails citing 2. -/
theorem range_rule_sound_witness :
    (rangeExampleTable.getCol "v" = some (rangeExampleInts.map Value.int) ∧
      outOfRangeCount (rangeExampleInts.map Value.int) 0 10 = 2) ∧
    (outOfRangeCount (rangeExampleInts.map Value.int) 0 10
        = rangeExampleInts.countP (fun n => decide (n < 0) || decide (10 < n)) ∧
      ∃ report, validate_data_quality rangeExampleTable [Rule.range "v" 0 10]
          = .ok report ∧
        (outOfRangeCount (rangeExampleInts.map Value.int) 0 10 = 0 →
          report.passed = [Rule.range "v" 0 10] ∧ report.failed = []) ∧
        (outOfRangeCount (rangeExampleInts.map Value.int) 0 10 ≠ 0 →
          report.passed = [] ∧
          report.failed = [(Rule.range "v" 0 10,
            toString (outOfRangeCount (rangeExampleInts.map Value.int) 0 10)
              ++ " values out of range")])) :=
  ⟨⟨by decide, by decide⟩,
    range_rule_sound rangeExampleTable "v" rangeExampleInts 0 10 (by decide)⟩

/-- The stats record of the C7 witness run. -/
def statsExample : PipelineStats :=
  { input_rows := 1, output_rows := 1, duration_seconds := 2,
    rows_per_second := (1 : ℚ) / 2, source := "raw/data.csv",
    destination := "processed/data.parquet" }

/-- Witness for C7: a run taking 2 seconds over one row reports a
throughput of 1/2 row per second. -/
theorem rows_per_second_sound_witness :
    run_etl_pipeline ⟨[("id", [Value.int 1])]⟩ none 2 "raw/data.csv"
        "processed/data.parquet" = .ok statsExample ∧
    (statsExample.duration_seconds = 2 ∧
      (0 < (2 : ℚ) → statsExample.rows_per_second
        = (statsExample.output_rows : ℚ) / statsExample.duration_seconds) ∧
      ((2 : ℚ) = 0 → statsExample.rows_per_second = 0)) := by
  have hv : run_etl_pipeline ⟨[("id", [Value.int 1])]⟩ none 2 "raw/data.csv"
      "processed/data.parquet" = .ok statsExample := by
    norm_num [run_etl_pipeline, transform, Table.copy, Table.nRows, mkStats,
      statsExample]
  exact ⟨hv, rows_per_second_sound ⟨[("id", [Value.int 1])]⟩ none 2
      "raw/data.csv" "processed/data.parquet" statsExample hv⟩

/-- Witness for the amended C8: `convert_type` on the missing column
`price` fails with `ColumnNotFoundError`, while `rename` never fails. -/
theorem missing_column_raises_witness :
    ("price" ∈ Op.referencedColumns (Op.convert_type "price" Dtype.int) ∧
      "price" ∉ Table.colNames ⟨[("a", [Value.int 1])]⟩) ∧
    ((∃ e, applyOp ⟨[("a", [Value.int 1])]⟩ (Op.convert_type "price" Dtype.int)
        = .error (.columnNotFound e) ∧
        e ∉ Table.colNames ⟨[("a", [Value.int 1])]⟩) ∧
      ∀ mapping, applyOp ⟨[("a", [Value.int 1])]⟩ (Op.rename mapping)
        = .ok ⟨(Table.mk [("a", [Value.int 1])]).cols.map
            (fun col => (renameName mapping col.1, col.2))⟩) :=
  ⟨⟨by decide, by decide⟩, missing_column_raises ⟨[("a", [Value.int 1])]⟩
      (Op.convert_type "price" Dtype.int) "price" (by decide) (by decide)⟩

/-- Witness for the amended C9: renaming `a` to `c` beside an untouched
column `b` keeps count, values, order and name-set cardinality. -/
theorem rename_is_relabeling_witness :
    ∃ t2, applyOp ⟨[("a", [Value.int 1]), ("b", [Value.int 2])]⟩
        (Op.rename [("a", "c")]) = .ok t2 ∧
      t2.cols = (Table.mk [("a", [Value.int 1]), ("b", [Value.int 2])]).cols.map
        (fun col => (renameName [("a", "c")] col.1, col.2)) ∧
      t2.cols.length
        = (Table.mk [("a", [Value.int 1]), ("b", [Value.int 2])]).cols.length ∧
      t2.cols.map Prod.snd
        = (Table.mk [("a", [Value.int 1]), ("b", [Value.int 2])]).cols.map
            Prod.snd ∧
      t2.colNames
        = (Table.mk [("a", [Value.int 1]), ("b", [Value.int 2])]).colNames.map
            (renameName [("a", "c")]) ∧
      ((∀ a ∈ (Table.mk [("a", [Value.int 1]), ("b", [Value.int 2])]).colNames,
          ∀ b ∈ (Table.mk [("a", [Value.int 1]), ("b", [Value.int 2])]).colNames,
          renameName [("a", "c")] a = renameName [("a", "c")] b → a = b) →
        t2.colNames.toFinset.card
          = (Table.mk [("a", [Value.int 1]),
              ("b", [Value.int 2])]).colNames.toFinset.card) :=
  rename_is_relabeling ⟨[("a", [Value.int 1]), ("b", [Value.int 2])]⟩
    [("a", "c")]

/-- Witness for C10: a one-cell store whose table is transformed by
`fill_nulls` keeps the caller's cell intact. -/
theorem transform_preserves_input_witness :
    ((transformStore ⟨[⟨[("a", [Value.null])]⟩]⟩ 0
        (some [Op.fill_nulls (Value.int 0)])).1).get 0
      = (Store.mk [⟨[("a", [Value.null])]⟩]).get 0 ∧
    (∀ j, j < (Store.mk [⟨[("a", [Value.null])]⟩]).cells.length →
      ((transformStore ⟨[⟨[("a", [Value.null])]⟩]⟩ 0
          (some [Op.fill_nulls (Value.int 0)])).1).get j
        = (Store.mk [⟨[("a", [Value.null])]⟩]).get j) :=
  transform_preserves_input ⟨[⟨[("a", [Value.null])]⟩]⟩ 0
    (some [Op.fill_nulls (Value.int 0)])

end CloudPipeline
